import Mathlib

/-!
Shallow embedding of a retrieval-augmented question-answering application
(sources: `src/vector_store.py`, `src/document_processor.py`,
`src/rag_pipeline.py`, `src/app.py`), followed by theorems settling the
frozen claims about it.

Strings are modelled as `List Char`.  External collaborators (the Chroma
vector index, the embedding providers, the language model and the
conversational retrieval chain, the filesystem) are modelled explicitly:
the index as the list of stored documents, fallible external calls either
as `Option`/`Except` results or as behaviour parameters, and initialization
failures of external components as `Bool` parameters of the constructor
embeddings.  External calls whose failure no claim is about (Chroma's
`delete_collection`/`count`, `shutil.rmtree`) are modelled as succeeding.
-/

namespace RAG

/-- Text is modelled as a list of characters. -/
abbrev Str := List Char

/-- The `"type"` tag written into chunk metadata by
`DocumentProcessor.load_pdf` / `load_txt` / `load_md`. -/
inductive DocType where
  | pdf
  | txt
  | markdown
deriving DecidableEq, Repr

/-- Chunk metadata, as built in `document_processor.py` (lines 33-38, 58-63,
83-88): source path, format tag, chunk index and total chunk count. -/
structure Metadata where
  source : Str
  type : DocType
  chunk : Nat
  total_chunks : Nat
deriving DecidableEq, Repr

/-- A langchain `Document`: page content plus metadata. -/
structure Document where
  page_content : Str
  metadata : Metadata
deriving DecidableEq, Repr

/-- The external Chroma collection, modelled by the list of documents it
stores; its `count()` is the length of that list. -/
structure Chroma where
  docs : List Document
deriving DecidableEq, Repr

/-- Which embedding provider `VectorStore.__init__` selected. -/
inductive EmbeddingProvider where
  | ollama
  | sentenceTransformer
deriving DecidableEq, Repr

/-- The `status` string returned by `VectorStore.get_store_info`
(`"not_initialized"` / `"active"` / `"error"`). -/
inductive StoreStatus where
  | not_initialized
  | active
  | error
deriving DecidableEq, Repr

/-- The dict returned by `VectorStore.get_store_info`. -/
structure StoreInfo where
  status : StoreStatus
  count : Nat
deriving DecidableEq, Repr

/-- State of a `VectorStore` instance (`vector_store.py`).
`persist_dir_exists` models the on-disk persist directory, filesystem state
the Python object reads through `os.path.exists` and mutates through
Chroma persistence and `shutil.rmtree`. -/
structure VectorStore where
  persist_directory : Str
  vector_store : Option Chroma
  embeddings : EmbeddingProvider
  persist_dir_exists : Bool
deriving DecidableEq, Repr

/-- Message printed (`str(e)` elided) when both embedding providers fail:
the exception of `SentenceTransformerEmbeddings` propagates out of
`VectorStore.__init__`. -/
def embeddings_fail_msg : Str :=
  "SentenceTransformerEmbeddings initialization failed".toList

/-- `VectorStore.__init__` (`vector_store.py` lines 9-21): try
`OllamaEmbeddings` first; on failure fall back to
`SentenceTransformerEmbeddings`.  The fallback call is not wrapped in a
`try`, so if it also fails the exception propagates out of the constructor
and no `VectorStore` object exists.  `ollama_ok` / `st_ok` model whether
the respective external provider constructor succeeds; `dir_exists`
models whether the persist directory already exists on disk. -/
def VectorStore.init (ollama_ok st_ok : Bool) (persist_directory : Str)
    (dir_exists : Bool) : Except Str VectorStore :=
  if ollama_ok then
    .ok { persist_directory := persist_directory, vector_store := none,
          embeddings := .ollama, persist_dir_exists := dir_exists }
  else if st_ok then
    .ok { persist_directory := persist_directory, vector_store := none,
          embeddings := .sentenceTransformer, persist_dir_exists := dir_exists }
  else
    .error embeddings_fail_msg

/-- `VectorStore.create_vector_store` (`vector_store.py` lines 23-40): with
no documents, return without touching the store; otherwise create the
Chroma collection from the batch (persisting to `persist_directory`) or
append to the existing collection. -/
def VectorStore.create_vector_store (s : VectorStore)
    (documents : List Document) : VectorStore :=
  if documents = [] then s
  else
    match s.vector_store with
    | none =>
        { s with vector_store := some { docs := documents },
                 persist_dir_exists := true }
    | some c =>
        { s with vector_store := some { docs := c.docs ++ documents } }

/-- `VectorStore.get_store_info` (`vector_store.py` lines 65-74).  The
external `_collection.count()` call is modelled as succeeding, so the
`except` branch returning `status="error"` is not taken in the model. -/
def VectorStore.get_store_info (s : VectorStore) : StoreInfo :=
  match s.vector_store with
  | none => { status := .not_initialized, count := 0 }
  | some c => { status := .active, count := c.docs.length }

/-- `VectorStore.similarity_search` (`vector_store.py` lines 57-63): with no
collection, return `[]`; otherwise delegate to the external index, modelled
by a ranking function `rank` of the underlying collection. -/
def VectorStore.similarity_search (s : VectorStore)
    (rank : Chroma → Str → Nat → List Document) (query : Str) (k : Nat) :
    List Document :=
  match s.vector_store with
  | none => []
  | some c => rank c query k

/-- `VectorStore.clear_store` (`vector_store.py` lines 76-89): if a
collection exists, delete it and set the reference to `None` (the external
`delete_collection` modelled as succeeding); then remove the persist
directory if it exists on disk. -/
def VectorStore.clear_store (s : VectorStore) : VectorStore :=
  let s1 :=
    match s.vector_store with
    | some _ => { s with vector_store := none }
    | none => s
  if s1.persist_dir_exists then { s1 with persist_dir_exists := false } else s1

/-! ## Chunker

`DocumentProcessor.__init__` (`document_processor.py` lines 9-15) configures
a `RecursiveCharacterTextSplitter` with separators
`["\n\n", "\n", " ", ""]`; the splitting algorithm itself lives in the
external langchain library, not in this repository's files, so it is
modelled from the spec (§4.1 Chunker): split hierarchically, preferring
paragraph breaks, then line breaks, then spaces, then raw character
boundaries; produce chunks of at most `chunkSize` characters, consecutive
chunks overlapping by `overlap` characters. -/

/-- Modelled from the spec: one pass of the hierarchical split.  Cuts the
text after each occurrence of `sep`, keeping the separator attached to the
piece before it, so that the pieces concatenate back to the text.  `fuel`
(instantiated with the text's length) makes the recursion structural;
`acc` holds the current piece reversed. -/
def splitKeepGo (sep : Str) : Nat → Str → Str → List Str
  | _, acc, [] => if acc = [] then [] else [acc.reverse]
  | 0, acc, c :: t => [acc.reverse ++ (c :: t)]
  | fuel + 1, acc, c :: t =>
    if sep.isPrefixOf (c :: t) then
      (acc.reverse ++ sep) :: splitKeepGo sep fuel [] ((c :: t).drop sep.length)
    else
      splitKeepGo sep fuel (c :: acc) t

/-- Modelled from the spec: split `text` at every occurrence of `sep`,
each piece keeping its trailing separator. -/
def splitKeep (sep text : Str) : List Str :=
  splitKeepGo sep text.length [] text

/-- Modelled from the spec: the last `n` characters of `l`, used to carry
`overlap` characters of context into the next chunk. -/
def take_last (n : Nat) (l : Str) : Str := l.drop (l.length - n)

/-- Modelled from the spec: greedily merge the pieces of one split level
into chunks of at most `chunk_size` characters; when a chunk is emitted the
next one starts with the last `chunk_overlap` characters of it.  A piece
that alone exceeds `chunk_size` when the current chunk is empty becomes an
oversized chunk (the deeper levels already had their chance to cut it). -/
def mergeGo (chunk_size chunk_overlap : Nat) : Str → List Str → List Str
  | cur, [] => if cur = [] then [] else [cur]
  | cur, p :: ps =>
    if (cur ++ p).length ≤ chunk_size ∨ cur = [] then
      mergeGo chunk_size chunk_overlap (cur ++ p) ps
    else
      cur :: mergeGo chunk_size chunk_overlap (take_last chunk_overlap cur ++ p) ps

/-- Modelled from the spec: raw character boundaries, the last resort of the
hierarchy — fixed-size windows stepping by `chunk_size - overlap`. -/
def char_windows_go (chunk_size step : Nat) : Nat → Str → List Str
  | _, [] => []
  | 0, l => [l.take chunk_size]
  | fuel + 1, l =>
    if l.length ≤ chunk_size then [l]
    else l.take chunk_size :: char_windows_go chunk_size step fuel (l.drop step)

/-- Modelled from the spec: character-level splitting (the `""` separator of
the source's configuration). -/
def char_windows (chunk_size chunk_overlap : Nat) (text : Str) : List Str :=
  char_windows_go chunk_size (max 1 (chunk_size - chunk_overlap)) text.length text

/-- Modelled from the spec: one level of the hierarchy — split on `sep`,
send pieces still longer than `chunk_size` to the next level `deeper`, and
merge the results into chunks. -/
def split_with_sep (chunk_size chunk_overlap : Nat) (sep : Str)
    (deeper : Str → List Str) (text : Str) : List Str :=
  mergeGo chunk_size chunk_overlap []
    ((splitKeep sep text).flatMap fun p =>
      if p.length ≤ chunk_size then [p] else deeper p)

/-- Modelled from the spec: third separator level, single spaces. -/
def split_level2 (chunk_size chunk_overlap : Nat) (text : Str) : List Str :=
  split_with_sep chunk_size chunk_overlap " ".toList
    (char_windows chunk_size chunk_overlap) text

/-- Modelled from the spec: second separator level, line breaks. -/
def split_level1 (chunk_size chunk_overlap : Nat) (text : Str) : List Str :=
  split_with_sep chunk_size chunk_overlap "\n".toList
    (split_level2 chunk_size chunk_overlap) text

/-- Modelled from the spec: first separator level, paragraph breaks. -/
def split_level0 (chunk_size chunk_overlap : Nat) (text : Str) : List Str :=
  split_with_sep chunk_size chunk_overlap "\n\n".toList
    (split_level1 chunk_size chunk_overlap) text

/-- `DocumentProcessor.__init__` (`document_processor.py` lines 9-15): the
chunking parameters of the configured splitter. -/
structure DocumentProcessor where
  chunk_size : Nat
  chunk_overlap : Nat
deriving DecidableEq, Repr

/-- The splitter's `split_text`, modelled from the spec's Chunker contract
with the source's separator hierarchy `["\n\n", "\n", " ", ""]`. -/
def DocumentProcessor.split_text (dp : DocumentProcessor) (text : Str) :
    List Str :=
  split_level0 dp.chunk_size dp.chunk_overlap text

/-! ## Document Processor -/

/-- The filesystem as the `load_*` methods see it: for a path,
`read_text` is the text successfully read by `open(...).read()` (`none`
models a read failure or missing file) and `read_pdf` the per-page text
successfully extracted by `pypdf` (`none` models a parse failure). -/
structure FileSystem where
  read_text : Str → Option Str
  read_pdf : Str → Option (List Str)

/-- The annotation loop shared by `load_pdf` / `load_txt` / `load_md`
(`document_processor.py` lines 30-39 etc.): wrap each chunk as a `Document`
whose metadata records the source path, format tag, running chunk index
`i` and the total chunk count. -/
def annotate (source : Str) (ty : DocType) (total : Nat) :
    Nat → List Str → List Document
  | _, [] => []
  | i, c :: cs =>
    { page_content := c,
      metadata := { source := source, type := ty, chunk := i,
                    total_chunks := total } } :: annotate source ty total (i + 1) cs

/-- `DocumentProcessor.load_pdf` (`document_processor.py` lines 17-43):
concatenate the pages' extracted text with `"\n"` separators, chunk it, and
annotate; on read/parse failure return `[]`. -/
def DocumentProcessor.load_pdf (dp : DocumentProcessor) (fs : FileSystem)
    (file_path : Str) : List Document :=
  match fs.read_pdf file_path with
  | none => []
  | some pages =>
    annotate file_path .pdf
      (dp.split_text (pages.map fun pg => pg ++ "\n".toList).flatten).length 0
      (dp.split_text (pages.map fun pg => pg ++ "\n".toList).flatten)

/-- `DocumentProcessor.load_txt` (`document_processor.py` lines 45-68). -/
def DocumentProcessor.load_txt (dp : DocumentProcessor) (fs : FileSystem)
    (file_path : Str) : List Document :=
  match fs.read_text file_path with
  | none => []
  | some text =>
    annotate file_path .txt (dp.split_text text).length 0 (dp.split_text text)

/-- `DocumentProcessor.load_md` (`document_processor.py` lines 70-93). -/
def DocumentProcessor.load_md (dp : DocumentProcessor) (fs : FileSystem)
    (file_path : Str) : List Document :=
  match fs.read_text file_path with
  | none => []
  | some text =>
    annotate file_path .markdown (dp.split_text text).length 0 (dp.split_text text)

/-- Index of the last occurrence of `c` in a string, or `none`. -/
def rfind_idx (c : Char) : Str → Option Nat
  | [] => none
  | x :: xs =>
    match rfind_idx c xs with
    | some i => some (i + 1)
    | none => if x = c then some 0 else none

/-- The final path component (`pathlib.PurePath.name`): everything after
the last `'/'`. -/
def last_component (path : Str) : Str :=
  match rfind_idx '/' path with
  | some i => path.drop (i + 1)
  | none => path

/-- `pathlib.PurePath.suffix` of a file name: from the last dot on, empty
when there is no dot, the dot is leading, or the dot is trailing. -/
def suffix_of_name (name : Str) : Str :=
  match rfind_idx '.' name with
  | some i => if 0 < i ∧ i + 1 < name.length then name.drop i else []
  | none => []

/-- Character-wise lowercasing, `str.lower()`. -/
def to_lower (s : Str) : Str := s.map Char.toLower

/-- `Path(file_path).suffix.lower()` as computed in
`DocumentProcessor.process_file` (`document_processor.py` line 97). -/
def file_extension (path : Str) : Str :=
  to_lower (suffix_of_name (last_component path))

/-- `DocumentProcessor.process_file` (`document_processor.py` lines 95-107):
dispatch on the lowercased extension; unsupported extensions yield `[]`. -/
def DocumentProcessor.process_file (dp : DocumentProcessor) (fs : FileSystem)
    (file_path : Str) : List Document :=
  if file_extension file_path = ".pdf".toList then dp.load_pdf fs file_path
  else if file_extension file_path = ".txt".toList then dp.load_txt fs file_path
  else if file_extension file_path = ".md".toList then dp.load_md fs file_path
  else []

/-- The format tag `process_file` would give a file with extension `e`
(`none` when the extension is unsupported). -/
def format_of_ext (e : Str) : Option DocType :=
  if e = ".pdf".toList then some .pdf
  else if e = ".txt".toList then some .txt
  else if e = ".md".toList then some .markdown
  else none

/-! ## Retrieval-augmented pipeline (`rag_pipeline.py`) -/

/-- The `type` tag of a langchain chat message (`"human"` / `"ai"`). -/
inductive MsgType where
  | human
  | ai
deriving DecidableEq, Repr

/-- A message stored in `ConversationBufferMemory.chat_memory.messages`. -/
structure Message where
  type : MsgType
  content : Str
deriving DecidableEq, Repr

/-- An entry of the list returned by `RAGPipeline.get_chat_history`
(`{"type": ..., "content": ...}`). -/
structure HistoryEntry where
  type : MsgType
  content : Str
deriving DecidableEq, Repr

/-- One entry of the `sources` list built in `RAGPipeline.ask_question`
(lines 88-93): display content plus the source chunk's metadata. -/
structure SourceEntry where
  content : Str
  metadata : Metadata
deriving DecidableEq, Repr

/-- The dict returned by `RAGPipeline.ask_question`: answer, source
entries, and the `error` flag.  The spec's `QueryResult.succeeded` is the
negation of `error` (see `AskResult.succeeded`). -/
structure AskResult where
  answer : Str
  source_documents : List SourceEntry
  error : Bool
deriving DecidableEq, Repr

/-- The spec's `QueryResult.succeeded` in terms of the code's `error`
flag. -/
def AskResult.succeeded (r : AskResult) : Bool := !r.error

/-- What one invocation of the external
`ConversationalRetrievalChain` produces: an answer with source documents,
or an exception carrying a message. -/
inductive ChainOutcome where
  | ok (answer : Str) (source_documents : List Document)
  | err (msg : Str)
deriving DecidableEq, Repr

/-- The behaviour of the external QA chain: the outcome of invoking it on a
question given the current memory contents. -/
abbrev ChainBehavior := Str → List Message → ChainOutcome

/-- State of a `RAGPipeline` instance.  `memory` is
`ConversationBufferMemory`'s message list (`none` models `self.memory is
None`; `__init__` always sets it to an empty memory).  `qa_chain` records
whether `self.qa_chain` is not `None`; the chain's behaviour itself is
external and passed to `ask_question` as a parameter. -/
structure RAGPipeline where
  vector_store : VectorStore
  model_name : Str
  memory : Option (List Message)
  qa_chain : Bool
deriving DecidableEq, Repr

/-- `RAGPipeline.__init__` (`rag_pipeline.py` lines 11-20):
`_initialize_llm` re-raises on failure (modelled by `llm_ok = false` giving
`Except.error`); `_setup_memory` installs an empty memory; `_setup_qa_chain`
(lines 39-73) leaves `qa_chain` as `None` when the vector store has no
collection, and otherwise builds the chain — an exception there is caught
and also leaves `qa_chain` as `None` (modelled by `chain_ok`). -/
def RAGPipeline.construct (store : VectorStore) (model_name : Str)
    (llm_ok chain_ok : Bool) : Except Str RAGPipeline :=
  if llm_ok = false then
    .error ("Error initializing LLM".toList)
  else
    .ok { vector_store := store, model_name := model_name,
          memory := some [],
          qa_chain := store.vector_store.isSome && chain_ok }

/-- The canned answer of `ask_question` when `self.qa_chain is None`
(`rag_pipeline.py` line 79). -/
def not_ready_answer : Str :=
  "System not ready. Please upload documents first.".toList

/-- The prefix of the answer built in `ask_question`'s `except` branch
(`rag_pipeline.py` line 102). -/
def error_answer_head : Str := "Error processing question: ".toList

/-- The source-entry display content (`rag_pipeline.py` line 91):
`doc.page_content[:200] + "..."` when the content exceeds 200 characters,
the content itself otherwise. -/
def truncate_content (c : Str) : Str :=
  if 200 < c.length then c.take 200 ++ "...".toList else c

/-- `RAGPipeline.ask_question` (`rag_pipeline.py` lines 75-105): with no QA
chain, the canned not-ready result; otherwise invoke the chain — on
success, the chain's memory appends the question and answer and the result
carries the truncated sources; the `except` branch converts an exception
into an error result.  Returns the updated pipeline state together with
the result dict; the embedding is total, matching the method's policy of
never letting an exception escape. -/
def RAGPipeline.ask_question (p : RAGPipeline) (chain : ChainBehavior)
    (question : Str) : RAGPipeline × AskResult :=
  if p.qa_chain = false then
    (p, { answer := not_ready_answer, source_documents := [], error := true })
  else
    match chain question (p.memory.getD []) with
    | .ok answer docs =>
      ({ p with memory := some (p.memory.getD [] ++
            [{ type := .human, content := question },
             { type := .ai, content := answer }]) },
       { answer := answer,
         source_documents := docs.map fun doc =>
           { content := truncate_content doc.page_content,
             metadata := doc.metadata },
         error := false })
    | .err e =>
      (p, { answer := error_answer_head ++ e, source_documents := [],
            error := true })

/-- `RAGPipeline.clear_memory` (`rag_pipeline.py` lines 107-110). -/
def RAGPipeline.clear_memory (p : RAGPipeline) : RAGPipeline :=
  match p.memory with
  | some _ => { p with memory := some [] }
  | none => p

/-- `RAGPipeline.get_chat_history` (`rag_pipeline.py` lines 112-128). -/
def RAGPipeline.get_chat_history (p : RAGPipeline) : List HistoryEntry :=
  match p.memory with
  | none => []
  | some messages =>
    messages.map fun m => { type := m.type, content := m.content }

/-- The dict returned by `RAGPipeline.get_system_info`. -/
structure SystemInfo where
  model_name : Str
  vector_store_status : StoreStatus
  document_count : Nat
  memory_initialized : Bool
  qa_chain_initialized : Bool
deriving DecidableEq, Repr

/-- `RAGPipeline.get_system_info` (`rag_pipeline.py` lines 130-140). -/
def RAGPipeline.get_system_info (p : RAGPipeline) : SystemInfo :=
  let vector_info := p.vector_store.get_store_info
  { model_name := p.model_name,
    vector_store_status := vector_info.status,
    document_count := vector_info.count,
    memory_initialized := p.memory.isSome,
    qa_chain_initialized := p.qa_chain }

/-- The operations available on a constructed pipeline instance. -/
inductive PipelineOp where
  | ask (chain : ChainBehavior) (question : Str)
  | clear_memory
  | get_chat_history
  | get_system_info

/-- The state reached after one pipeline operation: `ask_question` and
`clear_memory` update state; `get_chat_history` and `get_system_info` are
read-only accessors. -/
def RAGPipeline.step (p : RAGPipeline) : PipelineOp → RAGPipeline
  | .ask chain q => (p.ask_question chain q).1
  | .clear_memory => p.clear_memory
  | .get_chat_history => p
  | .get_system_info => p

/-- The state reached after a sequence of pipeline operations. -/
def RAGPipeline.run_ops (p : RAGPipeline) (ops : List PipelineOp) :
    RAGPipeline :=
  ops.foldl RAGPipeline.step p

/-- `initialize_rag_pipeline` (`app.py` lines 43-54): construct a
`RAGPipeline` only when the vector store reports a non-zero count; a
construction-time exception is caught and leaves no pipeline. -/
def initialize_rag_pipeline (store : VectorStore) (llm_ok chain_ok : Bool) :
    Option RAGPipeline :=
  if 0 < store.get_store_info.count then
    (RAGPipeline.construct store "mistral".toList llm_ok chain_ok).toOption
  else
    none

/-- Whether an optionally constructed pipeline is in the spec's Ready state
(a QA chain was built). -/
def pipeline_ready : Option RAGPipeline → Bool
  | none => false
  | some p => p.qa_chain

/-! ## Concrete fixtures used by the witness and counterexample theorems -/

/-- Metadata of the single chunk of a one-chunk text file. -/
def sample_meta : Metadata :=
  { source := "notes.txt".toList, type := .txt, chunk := 0, total_chunks := 1 }

/-- The single `Document` produced from a short text file. -/
def sample_doc : Document :=
  { page_content := "hello".toList, metadata := sample_meta }

/-- A vector store holding one indexed document. -/
def loaded_store : VectorStore :=
  { persist_directory := "./chroma_db".toList,
    vector_store := some { docs := [sample_doc] },
    embeddings := .ollama, persist_dir_exists := true }

/-- A vector store whose collection was never created. -/
def empty_store : VectorStore :=
  { persist_directory := "./chroma_db".toList, vector_store := none,
    embeddings := .ollama, persist_dir_exists := false }

/-- A pipeline constructed over an empty store: no QA chain was built. -/
def uninit_pipeline : RAGPipeline :=
  { vector_store := empty_store, model_name := "mistral".toList,
    memory := some [], qa_chain := false }

/-- A pipeline constructed over `loaded_store`, with its QA chain built. -/
def ready_pipeline : RAGPipeline :=
  { vector_store := loaded_store, model_name := "mistral".toList,
    memory := some [], qa_chain := true }

/-- A chain behaviour that always raises. -/
def err_chain : ChainBehavior := fun _ _ => .err "Ollama call failed".toList

/-- A retrieved chunk whose content exceeds 200 characters. -/
def long_doc : Document :=
  { page_content := List.replicate 201 'a', metadata := sample_meta }

/-- A chain behaviour that answers and cites `long_doc`. -/
def long_chain : ChainBehavior :=
  fun _ _ => .ok "an answer".toList [long_doc]

/-- A filesystem with one readable text file. -/
def sample_fs : FileSystem :=
  { read_text := fun p =>
      if p = "notes.txt".toList then some "hello".toList else none,
    read_pdf := fun _ => none }

/-- The default processor configuration (chunk size 1000, overlap 200). -/
def dp0 : DocumentProcessor := { chunk_size := 1000, chunk_overlap := 200 }

/-! ## Helper lemmas -/

theorem isPrefixOf_eq_append {sep l : Str} (h : sep.isPrefixOf l) :
    sep ++ l.drop sep.length = l := by
  obtain ⟨t, ht⟩ := List.isPrefixOf_iff_prefix.mp h
  rw [← ht, List.drop_left]

theorem splitKeepGo_flatten (sep : Str) (hs : sep ≠ []) :
    ∀ (fuel : Nat) (acc l : Str), l.length ≤ fuel →
      (splitKeepGo sep fuel acc l).flatten = acc.reverse ++ l := by
  intro fuel
  induction fuel with
  | zero =>
    intro acc l hl
    have hnil : l = [] := List.eq_nil_of_length_eq_zero (Nat.le_zero.mp hl)
    subst hnil
    by_cases ha : acc = [] <;> simp [splitKeepGo, ha]
  | succ fuel ih =>
    intro acc l hl
    cases l with
    | nil => by_cases ha : acc = [] <;> simp [splitKeepGo, ha]
    | cons c t =>
      by_cases hp : sep.isPrefixOf (c :: t)
      · have hd : sep ++ (c :: t).drop sep.length = c :: t := isPrefixOf_eq_append hp
        have hslen : 1 ≤ sep.length := by
          cases sep with
          | nil => exact absurd rfl hs
          | cons a s => simp
        have hple : sep.length ≤ (c :: t).length :=
          (List.isPrefixOf_iff_prefix.mp hp).length_le
        have hlen : ((c :: t).drop sep.length).length ≤ fuel := by
          rw [List.length_drop]
          simp only [List.length_cons] at hl ⊢
          omega
        simp only [splitKeepGo, if_pos hp, List.flatten_cons]
        rw [ih [] _ hlen]
        simp only [List.reverse_nil, List.nil_append, List.append_assoc, hd]
      · simp only [splitKeepGo, if_neg hp]
        rw [ih (c :: acc) t
          (by simpa using Nat.lt_succ_iff.mp (Nat.lt_of_lt_of_le (by simp) hl))]
        simp

theorem splitKeep_flatten {sep : Str} (text : Str) (hs : sep ≠ []) :
    (splitKeep sep text).flatten = text := by
  simpa using splitKeepGo_flatten sep hs text.length [] text le_rfl

theorem splitKeepGo_ne_nil (sep : Str) (hs : sep ≠ []) :
    ∀ (fuel : Nat) (acc l : Str), ∀ p ∈ splitKeepGo sep fuel acc l, p ≠ [] := by
  intro fuel
  induction fuel with
  | zero =>
    intro acc l p hp
    cases l with
    | nil =>
      by_cases ha : acc = []
      · simp [splitKeepGo, ha] at hp
      · simp only [splitKeepGo, if_neg ha, List.mem_singleton] at hp
        subst hp
        simpa using ha
    | cons c t =>
      simp only [splitKeepGo, List.mem_singleton] at hp
      subst hp
      simp
  | succ fuel ih =>
    intro acc l p hp
    cases l with
    | nil =>
      by_cases ha : acc = []
      · simp [splitKeepGo, ha] at hp
      · simp only [splitKeepGo, if_neg ha, List.mem_singleton] at hp
        subst hp
        simpa using ha
    | cons c t =>
      by_cases hpre : sep.isPrefixOf (c :: t)
      · simp only [splitKeepGo, if_pos hpre, List.mem_cons] at hp
        rcases hp with hp | hp
        · subst hp
          intro hcontra
          exact hs (List.append_eq_nil.mp hcontra).2
        · exact ih [] _ p hp
      · simp only [splitKeepGo, if_neg hpre] at hp
        exact ih _ _ p hp

theorem splitKeep_ne_nil {sep text : Str} (hs : sep ≠ []) :
    ∀ p ∈ splitKeep sep text, p ≠ [] :=
  splitKeepGo_ne_nil sep hs text.length [] text

theorem length_le_flatten_length {p : Str} {L : List Str} (h : p ∈ L) :
    p.length ≤ L.flatten.length := by
  induction L with
  | nil => simp at h
  | cons q L ih =>
    rw [List.mem_cons] at h
    rcases h with h | h
    · subst h
      simp [List.length_append]
    · simp only [List.flatten_cons, List.length_append]
      exact (ih h).trans (Nat.le_add_left _ _)

theorem flatMap_id_of_short (chunk_size : Nat) (f : Str → List Str) :
    ∀ L : List Str, (∀ p ∈ L, p.length ≤ chunk_size) →
      (L.flatMap fun p => if p.length ≤ chunk_size then [p] else f p) = L := by
  intro L
  induction L with
  | nil => intro _; rfl
  | cons q L ih =>
    intro h
    simp only [List.flatMap_cons, if_pos (h q (by simp))]
    simp only [List.singleton_append, List.cons.injEq, true_and]
    exact ih fun p hp => h p (by simp [hp])

theorem mergeGo_all_fit (chunk_size chunk_overlap : Nat) :
    ∀ (ps : List Str) (cur : Str), (∀ p ∈ ps, p ≠ []) →
      (cur ++ ps.flatten).length ≤ chunk_size → (cur = [] → ps ≠ []) →
      mergeGo chunk_size chunk_overlap cur ps = [cur ++ ps.flatten] := by
  intro ps
  induction ps with
  | nil =>
    intro cur _ _ hcur
    have hc : cur ≠ [] := fun h => (hcur h) rfl
    simp [mergeGo, hc]
  | cons p ps ih =>
    intro cur hne hlen hcur
    have hfit : (cur ++ p).length ≤ chunk_size := by
      simp only [List.flatten_cons, List.length_append] at hlen ⊢
      omega
    simp only [mergeGo, if_pos (Or.inl hfit)]
    rw [ih (cur ++ p) (fun q hq => hne q (by simp [hq]))
      (by simpa [List.append_assoc] using hlen)
      (fun h => absurd (List.append_eq_nil.mp h).2 (hne p (by simp)))]
    simp

theorem split_with_sep_short (chunk_size chunk_overlap : Nat) (sep : Str)
    (hs : sep ≠ []) (deeper : Str → List Str) (text : Str) (ht : text ≠ [])
    (hlen : text.length ≤ chunk_size) :
    split_with_sep chunk_size chunk_overlap sep deeper text = [text] := by
  unfold split_with_sep
  have hjoin : (splitKeep sep text).flatten = text := splitKeep_flatten text hs
  have hshort : ∀ p ∈ splitKeep sep text, p.length ≤ chunk_size := fun p hp =>
    (length_le_flatten_length hp).trans (by rw [hjoin]; exact hlen)
  rw [flatMap_id_of_short _ _ _ hshort]
  rw [mergeGo_all_fit _ _ _ _ (splitKeep_ne_nil hs)
    (by simpa [hjoin] using hlen)
    (fun _ => fun hnil => ht (by rw [← hjoin, hnil]; rfl))]
  simp [hjoin]

theorem annotate_length (source : Str) (ty : DocType) (total : Nat) :
    ∀ (cs : List Str) (i : Nat),
      (annotate source ty total i cs).length = cs.length := by
  intro cs
  induction cs with
  | nil => intro i; rfl
  | cons c cs ih => intro i; simp [annotate, ih]

theorem annotate_getElem? (source : Str) (ty : DocType) (total : Nat) :
    ∀ (cs : List Str) (i j : Nat),
      (annotate source ty total i cs)[j]? =
        (cs[j]?).map fun c =>
          { page_content := c,
            metadata := { source := source, type := ty, chunk := i + j,
                          total_chunks := total } } := by
  intro cs
  induction cs with
  | nil => intro i j; simp [annotate]
  | cons c cs ih =>
    intro i j
    cases j with
    | zero => simp [annotate]
    | succ j =>
      simp only [annotate, List.getElem?_cons_succ]
      rw [ih (i + 1) j]
      have : i + 1 + j = i + (j + 1) := by omega
      rw [this]

theorem annotate_traceback (source : Str) (ty : DocType) (cs : List Str)
    (j : Nat) (d : Document)
    (hd : (annotate source ty cs.length 0 cs)[j]? = some d) :
    d.metadata.source = source ∧ d.metadata.type = ty ∧
      d.metadata.chunk = j ∧
      d.metadata.total_chunks = (annotate source ty cs.length 0 cs).length := by
  rw [annotate_getElem?] at hd
  cases hc : cs[j]? with
  | none => rw [hc] at hd; simp at hd
  | some c =>
    rw [hc] at hd
    simp only [Option.map_some', Option.some.injEq] at hd
    subst hd
    exact ⟨rfl, rfl, by simp, by rw [annotate_length]⟩

theorem load_pdf_traceback (dp : DocumentProcessor) (fs : FileSystem)
    (file_path : Str) (j : Nat) (d : Document)
    (hd : (dp.load_pdf fs file_path)[j]? = some d) :
    d.metadata.source = file_path ∧ d.metadata.type = .pdf ∧
      d.metadata.chunk = j ∧
      d.metadata.total_chunks = (dp.load_pdf fs file_path).length := by
  unfold DocumentProcessor.load_pdf at hd ⊢
  cases hr : fs.read_pdf file_path with
  | none => rw [hr] at hd; simp at hd
  | some pages =>
    rw [hr] at hd
    exact annotate_traceback _ _ _ _ _ hd

theorem load_txt_traceback (dp : DocumentProcessor) (fs : FileSystem)
    (file_path : Str) (j : Nat) (d : Document)
    (hd : (dp.load_txt fs file_path)[j]? = some d) :
    d.metadata.source = file_path ∧ d.metadata.type = .txt ∧
      d.metadata.chunk = j ∧
      d.metadata.total_chunks = (dp.load_txt fs file_path).length := by
  unfold DocumentProcessor.load_txt at hd ⊢
  cases hr : fs.read_text file_path with
  | none => rw [hr] at hd; simp at hd
  | some text =>
    rw [hr] at hd
    exact annotate_traceback _ _ _ _ _ hd

theorem load_md_traceback (dp : DocumentProcessor) (fs : FileSystem)
    (file_path : Str) (j : Nat) (d : Document)
    (hd : (dp.load_md fs file_path)[j]? = some d) :
    d.metadata.source = file_path ∧ d.metadata.type = .markdown ∧
      d.metadata.chunk = j ∧
      d.metadata.total_chunks = (dp.load_md fs file_path).length := by
  unfold DocumentProcessor.load_md at hd ⊢
  cases hr : fs.read_text file_path with
  | none => rw [hr] at hd; simp at hd
  | some text =>
    rw [hr] at hd
    exact annotate_traceback _ _ _ _ _ hd

theorem ask_question_fst_qa_chain (p : RAGPipeline) (chain : ChainBehavior)
    (q : Str) : (p.ask_question chain q).1.qa_chain = p.qa_chain := by
  unfold RAGPipeline.ask_question
  split
  · rfl
  · split <;> rfl

theorem clear_memory_qa_chain (p : RAGPipeline) :
    p.clear_memory.qa_chain = p.qa_chain := by
  unfold RAGPipeline.clear_memory
  split <;> rfl

theorem step_preserves_qa_chain (p : RAGPipeline) (op : PipelineOp) :
    (p.step op).qa_chain = p.qa_chain := by
  cases op with
  | ask chain q => exact ask_question_fst_qa_chain p chain q
  | clear_memory => exact clear_memory_qa_chain p
  | get_chat_history => rfl
  | get_system_info => rfl

theorem run_ops_preserves_qa_chain (p : RAGPipeline) (ops : List PipelineOp) :
    (p.run_ops ops).qa_chain = p.qa_chain := by
  induction ops generalizing p with
  | nil => rfl
  | cons op ops ih =>
    simp only [RAGPipeline.run_ops, List.foldl_cons]
    exact (ih (p.step op)).trans (step_preserves_qa_chain p op)

theorem clear_store_eq (s : VectorStore) :
    s.clear_store =
      { s with vector_store := none, persist_dir_exists := false } := by
  obtain ⟨pd, vs, emb, pde⟩ := s
  unfold VectorStore.clear_store
  cases vs <;> cases pde <;> rfl

theorem truncate_content_length_le (c : Str) :
    (truncate_content c).length ≤ 203 := by
  unfold truncate_content
  by_cases h : 200 < c.length
  · rw [if_pos h]
    have hm : min 200 c.length ≤ 200 := Nat.min_le_left _ _
    simp only [List.length_append, List.length_take]
    have : ("...".toList).length = 3 := by decide
    omega
  · rw [if_neg h]
    omega

/-! ## The claims -/

/-- C1: for every question, `ask_question` on a pipeline in the
Uninitialized state (no QA chain) returns a result with `succeeded = false`
(the code's `error = true`), an answer that is the canned message containing
"not ready", and an empty sources list.  The embedding is a total function,
matching the method's returning rather than raising. -/
theorem c1_ask_not_ready (p : RAGPipeline) (chain : ChainBehavior)
    (question : Str) (h : p.qa_chain = false) :
    (p.ask_question chain question).2.succeeded = false ∧
      (p.ask_question chain question).2.answer = not_ready_answer ∧
      ("not ready".toList <:+: (p.ask_question chain question).2.answer) ∧
      (p.ask_question chain question).2.source_documents = [] := by
  have hres : p.ask_question chain question =
      (p, { answer := not_ready_answer, source_documents := [],
            error := true }) := by
    unfold RAGPipeline.ask_question
    rw [if_pos h]
  rw [hres]
  exact ⟨rfl, rfl, (by decide : "not ready".toList <:+: not_ready_answer), rfl⟩

/-- Witness for C1 at a concrete uninitialized pipeline and question. -/
theorem c1_ask_not_ready_witness :
    (uninit_pipeline.ask_question err_chain "hi".toList).2.succeeded = false ∧
      (uninit_pipeline.ask_question err_chain "hi".toList).2.answer =
        not_ready_answer ∧
      ("not ready".toList <:+:
        (uninit_pipeline.ask_question err_chain "hi".toList).2.answer) ∧
      (uninit_pipeline.ask_question err_chain "hi".toList).2.source_documents =
        [] :=
  c1_ask_not_ready uninit_pipeline err_chain "hi".toList rfl

/-- C2: in the Ready state, an exception raised by the retrieval/generation
chain (the chain invocation producing `ChainOutcome.err`) is converted into
a result with `succeeded = false`, the human-readable message
`"Error processing question: " ++ e`, and no sources; `ask_question` is a
total function, so no exception propagates to the caller. -/
theorem c2_ask_exception_caught (p : RAGPipeline) (chain : ChainBehavior)
    (question e : Str) (hready : p.qa_chain = true)
    (herr : chain question (p.memory.getD []) = .err e) :
    (p.ask_question chain question).2 =
      { answer := error_answer_head ++ e, source_documents := [],
        error := true } ∧
      (p.ask_question chain question).2.succeeded = false := by
  have hres : p.ask_question chain question =
      (p, { answer := error_answer_head ++ e, source_documents := [],
            error := true }) := by
    unfold RAGPipeline.ask_question
    rw [if_neg (by simp [hready]), herr]
  rw [hres]
  exact ⟨rfl, rfl⟩

/-- Witness for C2 at a concrete ready pipeline and a chain that raises. -/
theorem c2_ask_exception_caught_witness :
    (ready_pipeline.ask_question err_chain "hi".toList).2 =
      { answer := error_answer_head ++ "Ollama call failed".toList,
        source_documents := [], error := true } ∧
      (ready_pipeline.ask_question err_chain "hi".toList).2.succeeded =
        false :=
  c2_ask_exception_caught ready_pipeline err_chain "hi".toList
    "Ollama call failed".toList rfl rfl

/-- C3: with the external LLM and chain construction succeeding
(`llm_ok = true`, `chain_ok = true`), `initialize_rag_pipeline` yields a
Ready pipeline exactly when the vector store reports a non-zero count at
construction time; and no later operation (`ask_question`, `clear_memory`,
`get_chat_history`, `get_system_info`) ever changes whether the QA chain
exists, so the transition is one-way per instance in both directions. -/
theorem c3_ready_iff_nonzero_count (store : VectorStore)
    (llm_ok chain_ok : Bool) (p : RAGPipeline) (ops : List PipelineOp)
    (hllm : llm_ok = true) (hchain : chain_ok = true) :
    (pipeline_ready (initialize_rag_pipeline store llm_ok chain_ok) = true ↔
        0 < store.get_store_info.count) ∧
      (p.run_ops ops).qa_chain = p.qa_chain := by
  subst hllm hchain
  refine ⟨?_, run_ops_preserves_qa_chain p ops⟩
  by_cases hc : 0 < store.get_store_info.count
  · cases hv : store.vector_store with
    | none =>
      exfalso
      simp [VectorStore.get_store_info, hv] at hc
    | some c =>
      simp [initialize_rag_pipeline, hc, RAGPipeline.construct,
        Except.toOption, pipeline_ready, hv]
  · simp [initialize_rag_pipeline, hc, pipeline_ready]

/-- Witness for C3 at a loaded store and a ready pipeline running two
operations. -/
theorem c3_ready_iff_nonzero_count_witness :
    (pipeline_ready (initialize_rag_pipeline loaded_store true true) = true ↔
        0 < loaded_store.get_store_info.count) ∧
      (ready_pipeline.run_ops
          [PipelineOp.clear_memory, PipelineOp.get_chat_history]).qa_chain =
        ready_pipeline.qa_chain :=
  c3_ready_iff_nonzero_count loaded_store true true ready_pipeline
    [PipelineOp.clear_memory, PipelineOp.get_chat_history] rfl rfl

/-- C4: `clear_store` deletes all indexed records (the collection reference
becomes `None`) and removes the persisted directory, and it is idempotent:
a second call produces the same empty state (status `not_initialized`,
count 0, persist directory absent) and, being a total function, raises no
error. -/
theorem c4_clear_store_idempotent (s : VectorStore) :
    s.clear_store.clear_store = s.clear_store ∧
      s.clear_store.vector_store = none ∧
      s.clear_store.get_store_info =
        { status := .not_initialized, count := 0 } ∧
      s.clear_store.persist_dir_exists = false := by
  simp [clear_store_eq, VectorStore.get_store_info]

set_option maxRecDepth 4000 in
/-- C5 counterexample: a successful result citing a 201-character chunk has
a source content of length 203 (the first 200 characters plus `"..."`), not
the claimed truncation to 200 characters. -/
theorem c5_counterexample_content_length :
    (ready_pipeline.ask_question long_chain "q".toList).2.succeeded = true ∧
      ((ready_pipeline.ask_question long_chain "q".toList).2.source_documents.map
          fun src => src.content.length) = [203] ∧
      ((ready_pipeline.ask_question long_chain "q".toList).2.source_documents.map
          fun src => src.content) ≠ [(List.replicate 201 'a').take 200] := by
  decide

/-- C5 amended: in every successful result, each source entry carries the
retrieved chunk's metadata and a content equal to the chunk's content when
that is at most 200 characters, and otherwise to its first 200 characters
followed by `"..."`; hence every source content has length at most 203
(not 200 as claimed). -/
theorem c5_sources_truncated_to_203 (p : RAGPipeline) (chain : ChainBehavior)
    (question answer : Str) (docs : List Document)
    (hready : p.qa_chain = true)
    (hok : chain question (p.memory.getD []) = .ok answer docs) :
    (p.ask_question chain question).2.succeeded = true ∧
      (p.ask_question chain question).2.source_documents =
        (docs.map fun doc =>
          { content := truncate_content doc.page_content,
            metadata := doc.metadata }) ∧
      ((p.ask_question chain question).2.source_documents.all
          fun src => decide (src.content.length ≤ 203)) = true := by
  have hres : (p.ask_question chain question).2 =
      { answer := answer,
        source_documents := docs.map fun doc =>
          { content := truncate_content doc.page_content,
            metadata := doc.metadata },
        error := false } := by
    unfold RAGPipeline.ask_question
    rw [if_neg (by simp [hready]), hok]
  rw [hres]
  refine ⟨rfl, rfl, ?_⟩
  rw [List.all_eq_true]
  intro src hsrc
  rw [List.mem_map] at hsrc
  obtain ⟨doc, _, hdoc⟩ := hsrc
  rw [← hdoc]
  simpa using truncate_content_length_le doc.page_content

/-- Witness for the amended C5 at a ready pipeline citing a 201-character
chunk. -/
theorem c5_sources_truncated_to_203_witness :
    (ready_pipeline.ask_question long_chain "q".toList).2.succeeded = true ∧
      (ready_pipeline.ask_question long_chain "q".toList).2.source_documents =
        ([long_doc].map fun doc =>
          { content := truncate_content doc.page_content,
            metadata := doc.metadata }) ∧
      ((ready_pipeline.ask_question long_chain "q".toList).2.source_documents.all
          fun src => decide (src.content.length ≤ 203)) = true :=
  c5_sources_truncated_to_203 ready_pipeline long_chain "q".toList
    "an answer".toList [long_doc] rfl rfl

/-- C6 (chunker modelled from the spec): every text strictly shorter than
`chunk_size` splits into exactly one chunk equal to the input, and the
empty text splits into zero chunks. -/
theorem c6_short_text_single_chunk (dp : DocumentProcessor) (text : Str)
    (h : text.length < dp.chunk_size) :
    (dp.split_text text = if text = [] then [] else [text]) ∧
      dp.split_text [] = [] := by
  constructor
  · by_cases ht : text = []
    · rw [if_pos ht, ht]
      rfl
    · rw [if_neg ht]
      exact split_with_sep_short _ _ _ (by decide) _ text ht (Nat.le_of_lt h)
  · rfl

/-- Witness for C6 at the default configuration and a two-character text. -/
theorem c6_short_text_single_chunk_witness :
    (dp0.split_text "ab".toList =
        if "ab".toList = ([] : Str) then [] else ["ab".toList]) ∧
      dp0.split_text [] = [] :=
  c6_short_text_single_chunk dp0 "ab".toList (by decide)

/-- C7 counterexample: when both embedding providers fail to initialize,
`VectorStore.__init__` propagates the exception (`Except.error`) — it does
not produce a store instance whose operations report `status = error`. -/
theorem c7_counterexample_both_fail_raises :
    VectorStore.init false false "./chroma_db".toList false =
      Except.error embeddings_fail_msg := rfl

/-- C7 amended: the primary (Ollama) provider is attempted first and
selected whenever it initializes; on its failure the secondary
(sentence-transformer) provider is selected; if both fail, construction
propagates the failure and no store instance exists. -/
theorem c7_provider_fallback_order (persist_directory : Str)
    (st_ok dir_exists : Bool) :
    VectorStore.init true st_ok persist_directory dir_exists =
        Except.ok { persist_directory := persist_directory,
                    vector_store := none, embeddings := .ollama,
                    persist_dir_exists := dir_exists } ∧
      VectorStore.init false true persist_directory dir_exists =
        Except.ok { persist_directory := persist_directory,
                    vector_store := none,
                    embeddings := .sentenceTransformer,
                    persist_dir_exists := dir_exists } ∧
      VectorStore.init false false persist_directory dir_exists =
        Except.error embeddings_fail_msg :=
  ⟨rfl, rfl, rfl⟩

/-- C8: every document produced by `process_file` carries metadata tracing
it to its originating file and position: the source is the input path, the
type matches the extension's format, the chunk index is the document's
position in the returned list, and the total count is that list's
length. -/
theorem c8_metadata_traceback (dp : DocumentProcessor) (fs : FileSystem)
    (file_path : Str) (j : Nat) (d : Document)
    (hd : (dp.process_file fs file_path)[j]? = some d) :
    d.metadata.source = file_path ∧
      some d.metadata.type = format_of_ext (file_extension file_path) ∧
      d.metadata.chunk = j ∧
      d.metadata.total_chunks = (dp.process_file fs file_path).length := by
  unfold DocumentProcessor.process_file at hd ⊢
  by_cases hpdf : file_extension file_path = ".pdf".toList
  · rw [if_pos hpdf] at hd ⊢
    obtain ⟨h1, h2, h3, h4⟩ := load_pdf_traceback dp fs file_path j d hd
    have he : format_of_ext (file_extension file_path) = some DocType.pdf := by
      rw [hpdf]
      decide
    exact ⟨h1, by rw [he, h2], h3, h4⟩
  · rw [if_neg hpdf] at hd ⊢
    by_cases htxt : file_extension file_path = ".txt".toList
    · rw [if_pos htxt] at hd ⊢
      obtain ⟨h1, h2, h3, h4⟩ := load_txt_traceback dp fs file_path j d hd
      have he : format_of_ext (file_extension file_path) =
          some DocType.txt := by
        rw [htxt]
        decide
      exact ⟨h1, by rw [he, h2], h3, h4⟩
    · rw [if_neg htxt] at hd ⊢
      by_cases hmd : file_extension file_path = ".md".toList
      · rw [if_pos hmd] at hd ⊢
        obtain ⟨h1, h2, h3, h4⟩ := load_md_traceback dp fs file_path j d hd
        have he : format_of_ext (file_extension file_path) =
            some DocType.markdown := by
          rw [hmd]
          decide
        exact ⟨h1, by rw [he, h2], h3, h4⟩
      · rw [if_neg hmd] at hd
        simp at hd

/-- Witness for C8 at a one-chunk text file. -/
theorem c8_metadata_traceback_witness :
    sample_doc.metadata.source = "notes.txt".toList ∧
      some sample_doc.metadata.type =
        format_of_ext (file_extension "notes.txt".toList) ∧
      sample_doc.metadata.chunk = 0 ∧
      sample_doc.metadata.total_chunks =
        (dp0.process_file sample_fs "notes.txt".toList).length :=
  c8_metadata_traceback dp0 sample_fs "notes.txt".toList 0 sample_doc
    (by decide)

/-- C9: a path whose (lowercased) extension is none of `.pdf`, `.txt`,
`.md` yields no documents from `process_file`, and indexing that empty
batch leaves the vector store — and hence its reported status and count —
unchanged. -/
theorem c9_unsupported_extension (dp : DocumentProcessor) (fs : FileSystem)
    (file_path : Str) (s : VectorStore)
    (hpdf : file_extension file_path ≠ ".pdf".toList)
    (htxt : file_extension file_path ≠ ".txt".toList)
    (hmd : file_extension file_path ≠ ".md".toList) :
    dp.process_file fs file_path = [] ∧
      s.create_vector_store (dp.process_file fs file_path) = s ∧
      (s.create_vector_store (dp.process_file fs file_path)).get_store_info =
        s.get_store_info := by
  have h : dp.process_file fs file_path = [] := by
    unfold DocumentProcessor.process_file
    rw [if_neg hpdf, if_neg htxt, if_neg hmd]
  have h2 : s.create_vector_store [] = s := by
    unfold VectorStore.create_vector_store
    rw [if_pos rfl]
  rw [h, h2]
  exact ⟨rfl, rfl, rfl⟩

/-- Witness for C9 at a `.docx` path and a loaded store. -/
theorem c9_unsupported_extension_witness :
    dp0.process_file sample_fs "report.docx".toList = [] ∧
      loaded_store.create_vector_store
          (dp0.process_file sample_fs "report.docx".toList) = loaded_store ∧
      (loaded_store.create_vector_store
          (dp0.process_file sample_fs "report.docx".toList)).get_store_info =
        loaded_store.get_store_info :=
  c9_unsupported_extension dp0 sample_fs "report.docx".toList loaded_store
    (by decide) (by decide) (by decide)

/-- C10: asking while the pipeline is Uninitialized leaves the pipeline
state — in particular the conversation memory — unchanged, so a subsequent
`get_chat_history` returns the same sequence as before the call. -/
theorem c10_ask_not_ready_preserves_history (p : RAGPipeline)
    (chain : ChainBehavior) (question : Str) (h : p.qa_chain = false) :
    (p.ask_question chain question).1 = p ∧
      (p.ask_question chain question).1.memory = p.memory ∧
      (p.ask_question chain question).1.get_chat_history =
        p.get_chat_history := by
  have hres : (p.ask_question chain question).1 = p := by
    unfold RAGPipeline.ask_question
    rw [if_pos h]
  exact ⟨hres, by rw [hres], by rw [hres]⟩

/-- Witness for C10 at a concrete uninitialized pipeline. -/
theorem c10_ask_not_ready_preserves_history_witness :
    (uninit_pipeline.ask_question err_chain "again".toList).1 =
        uninit_pipeline ∧
      (uninit_pipeline.ask_question err_chain "again".toList).1.memory =
        uninit_pipeline.memory ∧
      (uninit_pipeline.ask_question err_chain
          "again".toList).1.get_chat_history =
        uninit_pipeline.get_chat_history :=
  c10_ask_not_ready_preserves_history uninit_pipeline err_chain
    "again".toList rfl

end RAG
